import Mathlib

/-!
Verification development for the facebook-ad-success-explorer repository.

Shallow embedding conventions:
* JavaScript numbers are modelled as `ℚ`; a possibly-NaN JavaScript number is
  modelled as `Option ℚ` with `none` standing for `NaN` (every JS arithmetic
  operation propagates `NaN`, which `Option.map` / explicit matches mirror).
* `Math.round x` is `⌊x + 1/2⌋` (JS rounds half towards +∞).
* Strings are Lean `String`s; the character-level helpers below reimplement the
  exact JS operations used by the source (`split('-')`, `replace(/[^\d]/g,'')`,
  `includes`, `trim`, `toLowerCase`, `join(' ')`) on `List Char`.
* `Date` values are epoch milliseconds (`Int`); `new Date()` ("now") is passed
  in explicitly as a parameter.
* Asynchronous database / Redis calls are modelled by `Except Unit` valued
  fields of an environment record: `.error ()` is a rejected promise.
* The unbounded mutual recursion between `extractMetrics` and
  `estimateEngagement` in `adSuccessScoreCalculator.js` is embedded with an
  explicit fuel parameter; running out of fuel (`none`) models the stack
  overflow the JS engine raises.
-/

/-- JS `Math.round`: floor of `x + 1/2` (rounds half up). -/
def jsRound (q : ℚ) : ℤ := ⌊q + 1/2⌋

/-- JS `String.prototype.toLowerCase`, restricted to the alphabetic range the
source vocabulary uses (`Char.toLower` maps `A`-`Z` to `a`-`z`). -/
def jsToLower (s : String) : String := String.mk (s.data.map Char.toLower)

/-- Digit characters of a string, in order: JS `s.replace(/[^\d]/g, '')`. -/
def digitChars (s : String) : List Char := s.data.filter Char.isDigit

/-- Decimal value of a digit list. -/
def digitsToNat (l : List Char) : Nat := l.foldl (fun acc c => acc * 10 + (c.toNat - 48)) 0

/-- JS `parseInt(s.replace(/[^\d]/g, ''), 10)`: `none` models `NaN` (empty
digit string), otherwise the decimal value of the kept digits. -/
def jsParseIntDigits (s : String) : Option ℚ :=
  match digitChars s with
  | [] => none
  | l => some ((digitsToNat l : ℚ))

/-- JS `s.split(c)` for a single-character separator, on character lists. -/
def splitOnChar (c : Char) : List Char → List (List Char)
  | [] => [[]]
  | ch :: rest =>
    let r := splitOnChar c rest
    if ch = c then [] :: r
    else
      match r with
      | [] => [[ch]]
      | g :: gs => (ch :: g) :: gs

/-- JS `s.includes(c)` for a single character. -/
def containsChar (s : String) (c : Char) : Bool := s.data.contains c

/--
`parseSpendRange` from `adSuccessScoreCalculator.js` (lines 114-133).
`none` input models a missing (`undefined`/`null`) field; a `none` result
models `NaN` (JS `parseInt` returns `NaN` instead of throwing, so the
`try/catch` in the source never fires and `NaN` escapes).
-/
def parseSpendRange (spendRange : Option String) : Option ℚ :=
  match spendRange with
  | none => some 0
  | some s =>
    if s.data.isEmpty then some 0
    else if containsChar s '-' then
      match (splitOnChar '-' s.data).map (fun part => jsParseIntDigits (String.mk part)) with
      | a :: b :: _ =>
        match a, b with
        | some mn, some mx => some ((mn + mx) / 2)
        | _, _ => none
      | _ => none
    else if containsChar s '<' then
      (jsParseIntDigits s).map (fun n => n / 2)
    else if containsChar s '>' then
      (jsParseIntDigits s).map (fun n => n * (3/2))
    else
      jsParseIntDigits s

/-- `parseImpressionRange` delegates to `parseSpendRange` (line 143). -/
def parseImpressionRange (impressionRange : Option String) : Option ℚ :=
  parseSpendRange impressionRange

/-- `calculateDurationScore` (lines 188-197), on exact rationals. -/
def calculateDurationScore (durationDays : ℚ) : ℚ :=
  if 60 ≤ durationDays then 25
  else if 30 ≤ durationDays then 15 + ((durationDays - 30) / 30) * 10
  else if 14 ≤ durationDays then 10 + ((durationDays - 14) / 16) * 5
  else if 7 ≤ durationDays then 5 + ((durationDays - 7) / 7) * 5
  else max 0 ((durationDays / 7) * 5)

/-- `calculateSpendScore` (lines 205-214). -/
def calculateSpendScore (spendAmount : ℚ) : ℚ :=
  if 5000 ≤ spendAmount then 25
  else if 1000 ≤ spendAmount then 15 + ((spendAmount - 1000) / 4000) * 10
  else if 500 ≤ spendAmount then 10 + ((spendAmount - 500) / 500) * 5
  else if 100 ≤ spendAmount then 5 + ((spendAmount - 100) / 400) * 5
  else max 0 ((spendAmount / 100) * 5)

/-- `calculateImpressionsScore` (lines 222-231). -/
def calculateImpressionsScore (impressions : ℚ) : ℚ :=
  if 500000 ≤ impressions then 25
  else if 100000 ≤ impressions then 15 + ((impressions - 100000) / 400000) * 10
  else if 50000 ≤ impressions then 10 + ((impressions - 50000) / 50000) * 5
  else if 10000 ≤ impressions then 5 + ((impressions - 10000) / 40000) * 5
  else max 0 ((impressions / 10000) * 5)

/-- The engagement-rate tier curve inside `calculateEngagementScore`
(lines 248-252), as a function of the engagement rate. -/
def engagementRateScore (engagementRate : ℚ) : ℚ :=
  if 1/10 ≤ engagementRate then 25
  else if 5/100 ≤ engagementRate then 15 + ((engagementRate - 5/100) / (5/100)) * 10
  else if 3/100 ≤ engagementRate then 10 + ((engagementRate - 3/100) / (2/100)) * 5
  else if 1/100 ≤ engagementRate then 5 + ((engagementRate - 1/100) / (2/100)) * 5
  else max 0 ((engagementRate / (1/100)) * 5)

/-- `calculateEngagementScore` (lines 239-253) on possibly-NaN metrics:
the rate is `estimatedEngagement / impressions` when `impressions > 0`
(false for `NaN`), else `0`. -/
def calculateEngagementScoreJS (impressions estimatedEngagement : Option ℚ) : Option ℚ :=
  match impressions with
  | some p =>
    if 0 < p then
      match estimatedEngagement with
      | some e => some (engagementRateScore (e / p))
      | none => none
    else some (engagementRateScore 0)
  | none => some (engagementRateScore 0)

/-- `calculateTotalScore` (lines 261-273): weighted sum of the four component
scores, rounded (weights 1.2 / 0.8 / 0.8 / 1.2). -/
def calculateTotalScore (durationScore spendScore impressionsScore engagementScore : ℚ) : ℤ :=
  jsRound (durationScore * (6/5) + spendScore * (4/5) + impressionsScore * (4/5) +
    engagementScore * (6/5))

example : parseSpendRange (some "100-500") = some 300 := by
  simp +decide [parseSpendRange, containsChar, splitOnChar, jsParseIntDigits, digitChars,
    digitsToNat]
  norm_num
example : parseSpendRange (some "<100") = some 50 := by
  simp +decide [parseSpendRange, containsChar, splitOnChar, jsParseIntDigits, digitChars,
    digitsToNat]
  norm_num
example : parseSpendRange (some ">1000") = some 1500 := by
  simp +decide [parseSpendRange, containsChar, splitOnChar, jsParseIntDigits, digitChars,
    digitsToNat]
  norm_num
example : parseSpendRange (some "250") = some 250 := by
  simp +decide [parseSpendRange, containsChar, splitOnChar, jsParseIntDigits, digitChars,
    digitsToNat]
example : parseSpendRange (some "") = some 0 := by decide
example : parseSpendRange none = some 0 := by decide
example : parseSpendRange (some "N/A") = none := by decide
example : calculateTotalScore 25 25 25 25 = 100 := by
  norm_num [calculateTotalScore, jsRound]
example : calculateDurationScore 60 = 25 := by norm_num [calculateDurationScore]
example : calculateDurationScore 0 = 0 := by norm_num [calculateDurationScore]

/-- JS `arr.join(' ')`. -/
def joinSp (l : List String) : String := String.intercalate " " l

/--
A raw ad record from the Facebook Ad Library API, as consumed by
`adSuccessScoreCalculator.js` and `adAnalysisEngine.js`.  Delivery timestamps
are epoch milliseconds (the result of `new Date(<field>).getTime()`);
`ad_delivery_stop_time = none` means "still running".
`demographic_distribution` keeps only the array length (the only thing the
source reads); `none` models an absent (falsy) field, as does `none` for the
creative-text arrays and range strings.
-/
structure RawAd where
  id : String
  ad_delivery_start_time : Int
  ad_delivery_stop_time : Option Int
  spend : Option String
  impressions : Option String
  demographic_distribution : Option Nat
  ad_creative_bodies : Option (List String)
  ad_creative_link_titles : Option (List String)
  ad_creative_link_descriptions : Option (List String)
deriving DecidableEq

/-- The metrics object built by `extractMetrics` (lines 97-105).
`durationDays` is a genuine number (never `NaN` for integer timestamps);
the range-derived and engagement fields are possibly-`NaN`. -/
structure Metrics where
  durationDays : ℚ
  spendAmount : Option ℚ
  impressions : Option ℚ
  estimatedEngagement : Option ℚ
  dailySpend : Option ℚ
  dailyImpressions : Option ℚ
deriving DecidableEq

/-- Duration in days computed by `extractMetrics` (lines 83-85):
`Math.max(1, Math.round((endTime - startTime) / (1000*60*60*24)))`. -/
def durationDaysOf (now : Int) (ad : RawAd) : ℚ :=
  ((max 1 (jsRound (((ad.ad_delivery_stop_time.getD now - ad.ad_delivery_start_time : Int) : ℚ)
    / 86400000)) : ℤ) : ℚ)

/-- `durationFactor` of `estimateEngagement` (line 158), given the
`durationDays` of the recursively extracted metrics. -/
def durationFactorOf (durationDays : ℚ) : ℚ := min (3/2) (1 + (durationDays / 30) * (1/2))

/-- `demographicFactor` of `estimateEngagement` (lines 161-162): an absent
(falsy) `demographic_distribution` yields `1`, a present array of length `n`
yields `min(1.2, 1 + (n/10)*0.2)`. -/
def demographicFactorOf (ad : RawAd) : ℚ :=
  match ad.demographic_distribution with
  | some n => min (6/5) (1 + ((n : ℚ) / 10) * (1/5))
  | none => 1

/-- `contentFactor` of `estimateEngagement` (lines 165-166). -/
def contentFactorOf (ad : RawAd) : ℚ :=
  match ad.ad_creative_bodies with
  | some bodies => min (13/10) (1 + (((joinSp bodies).length : ℚ) / 500) * (3/10))
  | none => 1

mutual

/--
`extractMetrics` (lines 81-106) with an explicit fuel parameter: the source
function unconditionally calls `estimateEngagement`, which unconditionally
calls `extractMetrics` back (line 158), so the JS pair recurses without bound
and every call ends in a stack-overflow exception.  `none` models that
exception (fuel exhaustion).
-/
def extractMetricsF : Nat → Int → RawAd → Option Metrics
  | 0, _, _ => none
  | fuel + 1, now, ad =>
    let durationDays := durationDaysOf now ad
    let spendAmount := parseSpendRange ad.spend
    let impressions := parseImpressionRange ad.impressions
    match estimateEngagementF fuel now ad impressions with
    | none => none
    | some estimatedEngagement =>
      some {
        durationDays := durationDays
        spendAmount := spendAmount
        impressions := impressions
        estimatedEngagement := estimatedEngagement
        dailySpend := spendAmount.map (fun s => s / durationDays)
        dailyImpressions := impressions.map (fun i => i / durationDays) }

/--
`estimateEngagement` (lines 153-180) with fuel.  The outer `Option` is fuel
exhaustion (stack overflow); the inner `Option ℚ` is the possibly-`NaN`
JS result.  The source first recomputes the metrics via
`this.extractMetrics(adData).durationDays`, then multiplies the factors into
`estimatedClicks = impressions * 0.01 * durationFactor * demographicFactor *
contentFactor` and returns `estimatedClicks + estimatedClicks * 2.5`.
-/
def estimateEngagementF : Nat → Int → RawAd → Option ℚ → Option (Option ℚ)
  | 0, _, _, _ => none
  | fuel + 1, now, ad, impressions =>
    match extractMetricsF fuel now ad with
    | none => none
    | some m =>
      let durationFactor := durationFactorOf m.durationDays
      let demographicFactor := demographicFactorOf ad
      let contentFactor := contentFactorOf ad
      let avgCTR : ℚ := 1/100
      let estimatedClicks := impressions.map
        (fun i => i * avgCTR * durationFactor * demographicFactor * contentFactor)
      let engagementsPerClick : ℚ := 5/2
      some (estimatedClicks.map (fun c => c + c * engagementsPerClick))

end

/-- The `componentScores` object (lines 30-35); each field is a possibly-`NaN`
JS number. -/
structure ComponentScores where
  durationScore : Option ℚ
  spendScore : Option ℚ
  impressionsScore : Option ℚ
  engagementScore : Option ℚ
deriving DecidableEq

/-- A persisted `AdScoreModel` record as read back by `findOne` (line 15):
total score, component scores and the `updatedAt` timestamp (epoch ms). -/
structure CachedScore where
  totalScore : Option ℚ
  componentScores : ComponentScores
  updatedAt : Int
deriving DecidableEq

instance {ε α : Type} [DecidableEq ε] [DecidableEq α] : DecidableEq (Except ε α) := fun
  | .error a, .error b =>
    match decEq a b with
    | isTrue h => isTrue (h ▸ rfl)
    | isFalse h => isFalse (fun hc => h (by injection hc))
  | .ok a, .ok b =>
    match decEq a b with
    | isTrue h => isTrue (h ▸ rfl)
    | isFalse h => isFalse (fun hc => h (by injection hc))
  | .error _, .ok _ => isFalse Except.noConfusion
  | .ok _, .error _ => isFalse Except.noConfusion

/--
Environment of one `calculateScore` call: the current time, the outcome of
the `AdScoreModel.findOne` lookup (`.error` = rejected promise), the outcome
of the `AdScoreModel.findOneAndUpdate` upsert, and the stack fuel for the
`extractMetrics`/`estimateEngagement` recursion.
-/
structure ScoreEnv where
  now : Int
  dbLookup : Except Unit (Option CachedScore)
  dbWrite : Except Unit Unit
  fuel : Nat
deriving DecidableEq

/-- The enriched ad returned by `calculateScore`: the original ad spread
together with `successScore` and `componentScores`. -/
structure ScoredAd where
  ad : RawAd
  successScore : Option ℚ
  componentScores : ComponentScores
deriving DecidableEq

/-- The all-zero fallback of `calculateScore`'s `catch` branch (lines 62-71). -/
def zeroScoredAd (ad : RawAd) : ScoredAd :=
  { ad := ad
    successScore := some 0
    componentScores :=
      { durationScore := some 0
        spendScore := some 0
        impressionsScore := some 0
        engagementScore := some 0 } }

/-- `calculateTotalScore` lifted to possibly-`NaN` component scores
(`Math.round(NaN) = NaN`). -/
def calculateTotalScoreJS (cs : ComponentScores) : Option ℚ :=
  match cs.durationScore, cs.spendScore, cs.impressionsScore, cs.engagementScore with
  | some d, some s, some i, some e => some ((calculateTotalScore d s i e : ℤ) : ℚ)
  | _, _, _, _ => none

/-- The metric-extraction and component-score part of `calculateScore`
(lines 27-38); `none` is a thrown exception (the stack overflow of the
mutual recursion). -/
def computeComponents (now : Int) (fuel : Nat) (ad : RawAd) : Option (ComponentScores × Option ℚ) :=
  match extractMetricsF fuel now ad with
  | none => none
  | some m =>
    let cs : ComponentScores :=
      { durationScore := some (calculateDurationScore m.durationDays)
        spendScore := m.spendAmount.map calculateSpendScore
        impressionsScore := m.impressions.map calculateImpressionsScore
        engagementScore := calculateEngagementScoreJS m.impressions m.estimatedEngagement }
    some (cs, calculateTotalScoreJS cs)

/-- The recompute-and-store path of `calculateScore` (lines 26-58): any
exception — metric extraction blowing the stack, or the upsert rejecting —
is caught and degrades to the all-zero enriched ad. -/
def recomputeScore (env : ScoreEnv) (ad : RawAd) : ScoredAd :=
  match computeComponents env.now env.fuel ad with
  | none => zeroScoredAd ad
  | some (cs, total) =>
    match env.dbWrite with
    | .error _ => zeroScoredAd ad
    | .ok _ => { ad := ad, successScore := total, componentScores := cs }

/--
`calculateScore` (lines 12-73): check the score cache; a fresh hit
(`updatedAt > now - 24h`) is returned as-is; otherwise recompute.  Any
failure on the executed path is caught (lines 59-72) and yields the
original ad enriched with a zero success score and zero component scores.
-/
def calculateScore (env : ScoreEnv) (ad : RawAd) : ScoredAd :=
  match env.dbLookup with
  | .error _ => zeroScoredAd ad
  | .ok (some existing) =>
    if env.now - 86400000 < existing.updatedAt then
      { ad := ad, successScore := existing.totalScore, componentScores := existing.componentScores }
    else recomputeScore env ad
  | .ok none => recomputeScore env ad

/-- JS `x >= t` on a possibly-`NaN` number (`NaN >= t` is `false`). -/
def jsGe (x : Option ℚ) (t : ℚ) : Bool :=
  match x with
  | none => false
  | some q => decide (t ≤ q)

/--
`processAds` from `adAnalysisEngine.js` (part_003, lines 23-46): score every
ad of the batch (each with its own environment), then keep those with
`successScore >= MIN_SUCCESS_SCORE = 70`.  `storeSuccessfulAds` swallows its
own errors (lines 74-76) and the detached `analyzeSuccessPatterns` call is
guarded by `.catch` (lines 37-39), so neither affects the returned value.
-/
def processAds (envOf : RawAd → ScoreEnv) (ads : List RawAd) : List ScoredAd :=
  let scoredAds := ads.map (fun ad => calculateScore (envOf ad) ad)
  scoredAds.filter (fun s => jsGe s.successScore 70)

/-- Decidable description of `calculateScore` taking the recompute path:
the cache lookup succeeded with no fresh entry. -/
def takesComputePath (env : ScoreEnv) : Bool :=
  match env.dbLookup with
  | .error _ => false
  | .ok none => true
  | .ok (some existing) => !(decide (env.now - 86400000 < existing.updatedAt))

/-- Decidable description of "some internal step of scoring this ad fails":
the cache lookup rejects, or the recompute path is taken and either metric
extraction throws or the upsert rejects. -/
def scoringStepFails (env : ScoreEnv) (ad : RawAd) : Bool :=
  (match env.dbLookup with | .error _ => true | .ok _ => false) ||
    (takesComputePath env &&
      ((computeComponents env.now env.fuel ad).isNone ||
        (match env.dbWrite with | .error _ => true | .ok _ => false)))

/-- One entry of `tfidf.listTerms(i)` from the `natural` library: a term and
its per-document TF-IDF weight. -/
structure TfIdfItem where
  term : String
  tfidf : ℚ
deriving DecidableEq

/-- One entry of the `commonTerms` output of `extractCommonTerms`
(lines 174-179 of part_003). -/
structure CommonTerm where
  term : String
  count : Nat
  averageTfidf : ℚ
deriving DecidableEq

/-- One entry of the mutable `terms` accumulator object (lines 160-169). -/
structure AccEntry where
  term : String
  count : Nat
  tfidfSum : ℚ
deriving DecidableEq

/-- The `terms[term]` insert-or-update of lines 160-169; a JS object keyed by
strings preserves insertion order, which the association list mirrors. -/
def bump (acc : List AccEntry) (t : String) (w : ℚ) : List AccEntry :=
  if acc.any (fun a => a.term = t) then
    acc.map (fun a =>
      if a.term = t then { a with count := a.count + 1, tfidfSum := a.tfidfSum + w } else a)
  else acc ++ [{ term := t, count := 1, tfidfSum := w }]

/-- Processing of one `listTerms` item (lines 152-170): lowercase the term,
skip stopwords and terms shorter than 3 characters, else accumulate. -/
def stepTerm (stop : List String) (acc : List AccEntry) (item : TfIdfItem) : List AccEntry :=
  if stop.contains (jsToLower item.term) || (jsToLower item.term).data.length < 3 then acc
  else bump acc (jsToLower item.term) item.tfidf

/-- The whole accumulation loop of `extractCommonTerms` (lines 151-171):
for each document take the top 10 listed terms and fold them in. -/
def accumulateTerms (stop : List String) (docs : List (List TfIdfItem)) : List AccEntry :=
  docs.foldl (fun acc doc => (doc.take 10).foldl (stepTerm stop) acc) []

/-- The sort comparator of lines 181-188 as a `le` relation: `a` may precede
`b` iff the JS comparator returns a non-positive value on `(a, b)`, i.e.
descending by `count`, ties broken descending by average TF-IDF. -/
def termLE (a b : CommonTerm) : Bool :=
  decide (b.count < a.count) ||
    (decide (b.count = a.count) && decide (b.averageTfidf ≤ a.averageTfidf))

/--
`extractCommonTerms` from `adAnalysisEngine.js` (part_003, lines 146-190),
parameterised by the `natural` library's stopword list and by the
`listTerms` output for each document: aggregate the per-document top-10
terms, keep the terms occurring more than once, sort descending by count
then average TF-IDF (JS `Array.prototype.sort` is stable; `mergeSort` is the
matching stable sort) and keep the top 20.
-/
def extractCommonTerms (stop : List String) (docs : List (List TfIdfItem)) : List CommonTerm :=
  let terms := accumulateTerms stop docs
  let mapped := terms.map (fun a =>
    { term := a.term, count := a.count, averageTfidf := a.tfidfSum / (a.count : ℚ) : CommonTerm })
  let filtered := mapped.filter (fun item => decide (1 < item.count))
  (filtered.mergeSort termLE).take 20

/-- JS `pat` list-prefix test, for `String.prototype.includes`. -/
def listStartsWith : List Char → List Char → Bool
  | [], _ => true
  | _ :: _, [] => false
  | p :: ps, c :: cs => p = c && listStartsWith ps cs

/-- JS `s.includes(pat)` on character lists. -/
def containsList (pat : List Char) : List Char → Bool
  | [] => listStartsWith pat []
  | c :: rest => listStartsWith pat (c :: rest) || containsList pat rest

/-- JS `s.includes(pat)`. -/
def strIncludes (s pat : String) : Bool := containsList pat.data s.data

/-- JS whitespace for `String.prototype.trim` (the characters occurring in
this corpus model). -/
def jsIsWhitespace (c : Char) : Bool := c = ' ' || c = '\t' || c = '\n' || c = '\r'

/-- JS `s.trim()`. -/
def jsTrim (s : String) : String :=
  String.mk (((s.data.dropWhile jsIsWhitespace).reverse.dropWhile jsIsWhitespace).reverse)

/-- Concatenated creative bodies: `(ad.ad_creative_bodies || []).join(' ')`. -/
def bodiesText (ad : RawAd) : String := joinSp (ad.ad_creative_bodies.getD [])

/-- The call-to-action vocabulary (line 105 of the fixed engine). -/
def ctaWords : List String :=
  ["shop", "buy", "get", "sign up", "learn", "discover", "try", "click", "visit", "join",
   "order", "call"]

/-- The `structurePatterns` record (integers: all four values are rounded). -/
structure StructurePatterns where
  averageTextLength : ℤ
  ctaPresenceRate : ℤ
  questionPresenceRate : ℤ
  emojiPresenceRate : ℤ
deriving DecidableEq

/--
`analyzeAdStructure` from `src/server/src/services/adAnalysisEngine.js`
(fixed version, lines 85-136): zero record for an empty collection, average
body-text length over ads with non-empty bodies, and rounded percentage
rates for call-to-action words, a literal question mark and emoji presence.
The emoji regular expression is an external-library behaviour and is
parameterised as `emojiTest`.
-/
def analyzeAdStructureFixed (emojiTest : String → Bool) (ads : List RawAd) : StructurePatterns :=
  if ads.isEmpty then
    { averageTextLength := 0, ctaPresenceRate := 0, questionPresenceRate := 0,
      emojiPresenceRate := 0 }
  else
    let textLengths := (ads.map (fun ad => ((bodiesText ad).data.length : ℤ))).filter
      (fun len => decide (0 < len))
    let avgTextLength : ℚ :=
      if 0 < textLengths.length then (textLengths.sum : ℚ) / (textLengths.length : ℚ) else 0
    let denom : ℚ := ((max 1 ads.length : ℕ) : ℚ)
    let ctaPresence : ℚ := ((ads.filter (fun ad =>
      ctaWords.any (fun cta => strIncludes (jsToLower (bodiesText ad)) cta))).length : ℚ) / denom
    let questionPresence : ℚ :=
      ((ads.filter (fun ad => strIncludes (bodiesText ad) "?")).length : ℚ) / denom
    let emojiPresence : ℚ :=
      ((ads.filter (fun ad => emojiTest (bodiesText ad))).length : ℚ) / denom
    { averageTextLength := jsRound avgTextLength
      ctaPresenceRate := jsRound (ctaPresence * 100)
      questionPresenceRate := jsRound (questionPresence * 100)
      emojiPresenceRate := jsRound (emojiPresence * 100) }

/-- The placeholder visual-element record (lines 250-255 of part_003). -/
structure VisualPatterns where
  imagePresenceRate : ℤ
  videoPresenceRate : ℤ
  carouselPresenceRate : ℤ
deriving DecidableEq

/-- The fixed placeholder values returned by `analyzeVisualElements`. -/
def placeholderVisualPatterns : VisualPatterns :=
  { imagePresenceRate := 95, videoPresenceRate := 60, carouselPresenceRate := 40 }

/-- The pattern report cached under `ad_success_patterns`; the explicitly
empty report of `getSuccessPatterns` (lines 292-297) carries empty objects
for the structural and visual parts, modelled as `none`. -/
structure PatternReport where
  commonTerms : List CommonTerm
  structurePatterns : Option StructurePatterns
  visualPatterns : Option VisualPatterns
  updatedAt : Int
deriving DecidableEq

/-- External-collaborator behaviour the corpus analysis depends on: the
`natural` TF-IDF model (per-document `listTerms` output for a given corpus),
the emoji regular expression, and the `natural.stopwords` list. -/
structure CorpusEnv where
  listTerms : List String → List (List TfIdfItem)
  emojiTest : String → Bool
  stopwords : List String

/-- Concatenated ad text of the fixed engine (lines 18-28): bodies, link
titles and link descriptions, `filter(Boolean)` dropping empty strings,
joined with spaces. -/
def adTextFixed (ad : RawAd) : String :=
  joinSp ((ad.ad_creative_bodies.getD [] ++ ad.ad_creative_link_titles.getD [] ++
    ad.ad_creative_link_descriptions.getD []).filter (fun s => !s.data.isEmpty))

/-- Concatenated ad text of the part_003 engine (lines 92-102): same fields
joined with spaces, without the `filter(Boolean)` cleanup. -/
def adTextOrig (ad : RawAd) : String :=
  joinSp (ad.ad_creative_bodies.getD [] ++ ad.ad_creative_link_titles.getD [] ++
    ad.ad_creative_link_descriptions.getD [])

/--
`analyzeSuccessPatterns` from `src/server/src/services/adAnalysisEngine.js`
(the "partial fix" of the problematic part_003 method, lines 9-77): `none`
for a missing/non-array input, for fewer than 5 ads, and for fewer than 5
ads whose concatenated text is non-empty after trimming; otherwise the
computed pattern report (the report is also written to the Redis cache, with
a write failure swallowed by the inner `try/catch`).
-/
def analyzeSuccessPatternsFixed (env : CorpusEnv) (now : Int) (successfulAds : Option (List RawAd)) :
    Option PatternReport :=
  match successfulAds with
  | none => none
  | some ads =>
    if ads.length < 5 then none
    else
      let adContents := (ads.map adTextFixed).filter
        (fun t => !t.data.isEmpty && !(jsTrim t).data.isEmpty)
      if adContents.length < 5 then none
      else
        some { commonTerms := extractCommonTerms env.stopwords (env.listTerms adContents)
               structurePatterns := some (analyzeAdStructureFixed env.emojiTest ads)
               visualPatterns := some placeholderVisualPatterns
               updatedAt := now }

/-- `analyzeAdStructure` from part_003 (lines 198-239): no empty-collection
guard and no empty-text filtering (only reachable with 5 or more ads). -/
def analyzeAdStructureOrig (emojiTest : String → Bool) (ads : List RawAd) : StructurePatterns :=
  let textLengths := ads.map (fun ad => ((bodiesText ad).data.length : ℤ))
  let avgTextLength : ℚ := (textLengths.sum : ℚ) / (textLengths.length : ℚ)
  let denom : ℚ := (ads.length : ℚ)
  let ctaPresence : ℚ := ((ads.filter (fun ad =>
    ctaWords.any (fun cta => strIncludes (jsToLower (bodiesText ad)) cta))).length : ℚ) / denom
  let questionPresence : ℚ :=
    ((ads.filter (fun ad => strIncludes (bodiesText ad) "?")).length : ℚ) / denom
  let emojiPresence : ℚ :=
    ((ads.filter (fun ad => emojiTest (bodiesText ad))).length : ℚ) / denom
  { averageTextLength := jsRound avgTextLength
    ctaPresenceRate := jsRound (ctaPresence * 100)
    questionPresenceRate := jsRound (questionPresence * 100)
    emojiPresenceRate := jsRound (emojiPresence * 100) }

/--
`analyzeSuccessPatterns` from part_003 (lines 84-139): only the raw ad count
is checked against the threshold of 5; ads with empty concatenated text are
still fed to the TF-IDF model.  The returned value is the report the method
builds and caches (`none` = the "not enough ads" early return; any internal
error is swallowed by the method's own `catch`).
-/
def analyzeSuccessPatternsOrig (env : CorpusEnv) (now : Int) (ads : List RawAd) :
    Option PatternReport :=
  if ads.length < 5 then none
  else
    let adContents := ads.map adTextOrig
    some { commonTerms := extractCommonTerms env.stopwords (env.listTerms adContents)
           structurePatterns := some (analyzeAdStructureOrig env.emojiTest ads)
           visualPatterns := some placeholderVisualPatterns
           updatedAt := now }

/--
Environment of one `getSuccessPatterns` call (part_003, lines 262-302): the
first Redis `get`, the `SuccessfulAdModel.find` fallback (the `adData` of
the top-100 records), and the Redis `get` re-issued after the recompute.
The cached JSON string is modelled as the decoded report.
-/
structure PatternEnv where
  now : Int
  cacheGet : Except Unit (Option PatternReport)
  dbFind : Except Unit (List RawAd)
  cacheGet2 : Except Unit (Option PatternReport)

/-- The explicitly empty report of lines 292-297. -/
def emptyPatternReport (now : Int) : PatternReport :=
  { commonTerms := [], structurePatterns := none, visualPatterns := none, updatedAt := now }

/--
`getSuccessPatterns` (part_003, lines 262-302): serve the cached report; on
a miss, load recent successful ads, re-run the (error-swallowing) analysis,
re-read the cache, and fall back to the explicitly empty report.  The
enclosing `catch` logs and RETHROWS (line 300), so a rejected cache read or
DB read surfaces to the caller as `.error`.
-/
def getSuccessPatterns (env : PatternEnv) : Except Unit PatternReport :=
  match env.cacheGet with
  | .error e => .error e
  | .ok (some cached) => .ok cached
  | .ok none =>
    match env.dbFind with
    | .error e => .error e
    | .ok records =>
      if 0 < records.length then
        match env.cacheGet2 with
        | .error e => .error e
        | .ok (some p) => .ok p
        | .ok none => .ok (emptyPatternReport env.now)
      else .ok (emptyPatternReport env.now)

/--
C1: the spec claims metric extraction terminates for every raw ad and
returns `estimatedEngagement = estimatedClicks + estimatedPostEngagements`.
In the source, `extractMetrics` unconditionally calls `estimateEngagement`
(line 95) and `estimateEngagement` unconditionally calls
`this.extractMetrics(adData)` back (line 158), so the pair recurses without
bound: for every fuel budget, every current time and every raw ad, the
fuel-indexed embedding of the pair produces no result — the pair is not a
total function of the raw ad, and no `estimatedEngagement` value is ever
returned.
-/
theorem extractMetrics_diverges :
    ∀ (fuel : Nat) (now : Int) (ad : RawAd) (impressions : Option ℚ),
      extractMetricsF fuel now ad = none ∧ estimateEngagementF fuel now ad impressions = none := by
  intro fuel
  induction fuel with
  | zero => exact fun _ _ _ => ⟨rfl, rfl⟩
  | succ n ih =>
    intro now ad impressions
    constructor
    · show extractMetricsF (n + 1) now ad = none
      simp only [extractMetricsF, (ih now ad (parseImpressionRange ad.impressions)).2]
    · show estimateEngagementF (n + 1) now ad impressions = none
      simp only [estimateEngagementF, (ih now ad impressions).1]

/--
C3: the spec claims `parseSpendRange` maps every unparsable string to
exactly `0`.  For the unparsable string `"N/A"`, the source strips
non-digits and calls `parseInt` on the empty remainder, which yields `NaN`
(`none`), not `0`: `parseInt` does not throw, so the `catch` branch that
would return `0` is never reached.  Empty and missing inputs do yield `0`,
and the downstream spend score of a `NaN` spend is itself `NaN`, not a score
derived from `0`.
-/
theorem parseSpendRange_NA_is_NaN :
    parseSpendRange (some "N/A") = none ∧ parseSpendRange (some "N/A") ≠ some 0 ∧
      (parseSpendRange (some "N/A")).map calculateSpendScore = none ∧
      parseSpendRange none = some 0 ∧ parseSpendRange (some "") = some 0 := by
  refine ⟨by decide, by decide, by decide, by decide, by decide⟩

/--
C6: the concrete range-parser equations of the spec hold on the code:
midpoint for `"A-B"`, half for `"<N"`, one-and-a-half times for `">N"`,
identity on a plain number, and `0` for the empty and the missing input.
-/
theorem parseSpendRange_shapes :
    parseSpendRange (some "100-500") = some 300 ∧ parseSpendRange (some "<100") = some 50 ∧
      parseSpendRange (some ">1000") = some 1500 ∧ parseSpendRange (some "250") = some 250 ∧
      parseSpendRange (some "") = some 0 ∧ parseSpendRange none = some 0 := by
  refine ⟨?_, ?_, ?_, ?_, by decide, by decide⟩ <;>
  · simp +decide [parseSpendRange, containsChar, splitOnChar, jsParseIntDigits, digitChars,
      digitsToNat]
    try norm_num

/--
C4: for component scores in `[0, 25]`, `calculateTotalScore` equals the
rounded weighted sum `round(d*1.2 + s*0.8 + i*0.8 + e*1.2)` (an integer by
construction, since `Math.round` returns an integer), lies in `[0, 100]`,
and the weighted sum of the four maxima is exactly `100`.
-/
theorem calculateTotalScore_range (d s i e : ℚ)
    (hd0 : 0 ≤ d) (hd : d ≤ 25) (hs0 : 0 ≤ s) (hs : s ≤ 25)
    (hi0 : 0 ≤ i) (hi : i ≤ 25) (he0 : 0 ≤ e) (he : e ≤ 25) :
    calculateTotalScore d s i e =
        jsRound (d * (6/5) + s * (4/5) + i * (4/5) + e * (6/5)) ∧
      0 ≤ calculateTotalScore d s i e ∧ calculateTotalScore d s i e ≤ 100 ∧
      25 * (6/5 : ℚ) + 25 * (4/5) + 25 * (4/5) + 25 * (6/5) = 100 ∧
      calculateTotalScore 25 25 25 25 = 100 := by
  have hw0 : 0 ≤ d * (6/5) + s * (4/5) + i * (4/5) + e * (6/5) := by positivity
  have hw1 : d * (6/5) + s * (4/5) + i * (4/5) + e * (6/5) ≤ 100 := by linarith
  refine ⟨rfl, ?_, ?_, by norm_num, by norm_num [calculateTotalScore, jsRound]⟩
  · unfold calculateTotalScore jsRound
    rw [Int.le_floor]
    push_cast
    linarith
  · unfold calculateTotalScore jsRound
    have : (⌊d * (6/5) + s * (4/5) + i * (4/5) + e * (6/5) + 1/2⌋ : ℤ) ≤ ⌊(201/2 : ℚ)⌋ :=
      Int.floor_le_floor (by linarith)
    simpa using this.trans (by norm_num)

/-- Witness for C4 at the concrete component scores (20, 10, 10, 20). -/
theorem calculateTotalScore_range_witness :
    0 ≤ calculateTotalScore 20 10 10 20 ∧ calculateTotalScore 20 10 10 20 ≤ 100 := by
  have h := calculateTotalScore_range 20 10 10 20 (by norm_num) (by norm_num) (by norm_num)
    (by norm_num) (by norm_num) (by norm_num) (by norm_num) (by norm_num)
  exact ⟨h.2.1, h.2.2.1⟩

/--
C10: every ad in the list returned by `processAds` passed the
`successScore >= MIN_SUCCESS_SCORE` filter with the hard-coded threshold
`70`: its success score is a real number (not `NaN`) of value at least 70.
-/
theorem processAds_only_successful (envOf : RawAd → ScoreEnv) (ads : List RawAd)
    (s : ScoredAd) (hs : s ∈ processAds envOf ads) :
    ∃ q, s.successScore = some q ∧ 70 ≤ q := by
  unfold processAds at hs
  rcases (List.mem_filter.mp hs) with ⟨-, hge⟩
  unfold jsGe at hge
  cases h : s.successScore with
  | none => rw [h] at hge; cases hge
  | some q =>
    rw [h] at hge
    exact ⟨q, rfl, by simpa using hge⟩

def w10ad : RawAd :=
  { id := "ad-1", ad_delivery_start_time := 0, ad_delivery_stop_time := none, spend := none,
    impressions := none, demographic_distribution := none, ad_creative_bodies := none,
    ad_creative_link_titles := none, ad_creative_link_descriptions := none }

def w10components : ComponentScores :=
  { durationScore := some 20, spendScore := some 20, impressionsScore := some 20,
    engagementScore := some 20 }

def w10cached : CachedScore :=
  { totalScore := some 80, componentScores := w10components, updatedAt := 1 }

def w10env : ScoreEnv :=
  { now := 0, dbLookup := .ok (some w10cached), dbWrite := .ok (), fuel := 0 }

example : jsGe (some 80) 70 = true := by decide
example : calculateScore w10env w10ad = ScoredAd.mk w10ad (some 80) w10components := by decide
example : processAds (fun _ => w10env) [w10ad] = [ScoredAd.mk w10ad (some 80) w10components] := by
  decide

/-- Witness for C10: a batch with one fresh cached score of 80 really does
surface in `processAds`, and the theorem applies to it. -/
theorem processAds_only_successful_witness :
    ∃ q, (ScoredAd.mk w10ad (some 80) w10components).successScore = some q ∧ 70 ≤ q :=
  processAds_only_successful (fun _ => w10env) [w10ad]
    (ScoredAd.mk w10ad (some 80) w10components) (by decide)

/--
C2: if any internal step of scoring an ad fails — the cache lookup rejects,
metric extraction throws (as it always does once the recompute path is
taken, by C1's divergence), or the upsert rejects — then `calculateScore`
returns the original ad enriched with `successScore = 0` and all four
component scores `0`, and (being a total function) propagates no exception;
and in a `processAds` batch every ad whose own score passes the threshold
appears in the result, independently of failures local to other ads.
-/
theorem calculateScore_degrades :
    (∀ (env : ScoreEnv) (ad : RawAd), scoringStepFails env ad = true →
      calculateScore env ad = zeroScoredAd ad) ∧
    (∀ (envOf : RawAd → ScoreEnv) (ads : List RawAd) (b : RawAd), b ∈ ads →
      jsGe (calculateScore (envOf b) b).successScore 70 = true →
      calculateScore (envOf b) b ∈ processAds envOf ads) := by
  constructor
  · intro env ad hfail
    obtain ⟨now, dbLookup, dbWrite, fuel⟩ := env
    cases dbLookup with
    | error e => rfl
    | ok lookup =>
      cases lookup with
      | none =>
        simp only [scoringStepFails, takesComputePath, Bool.false_or, Bool.true_and] at hfail
        cases hcc : computeComponents now fuel ad with
        | none => simp [calculateScore, recomputeScore, hcc]
        | some pair =>
          rw [hcc] at hfail
          simp only [Option.isNone_some, Bool.false_or] at hfail
          cases dbWrite with
          | error e =>
            obtain ⟨cs, total⟩ := pair
            simp [calculateScore, recomputeScore, hcc]
          | ok u => simp at hfail
      | some existing =>
        by_cases hfresh : now - 86400000 < existing.updatedAt
        · simp [scoringStepFails, takesComputePath, hfresh] at hfail
        · simp [scoringStepFails, takesComputePath, hfresh] at hfail
          simp only [calculateScore, recomputeScore, if_neg hfresh]
          cases hcc : computeComponents now fuel ad with
          | none => rfl
          | some pair =>
            rw [hcc] at hfail
            cases dbWrite with
            | error e => obtain ⟨cs, total⟩ := pair; rfl
            | ok u => simp at hfail
  · intro envOf ads b hb hge
    unfold processAds
    exact List.mem_filter.mpr ⟨List.mem_map_of_mem _ hb, hge⟩

def w2badAd : RawAd :=
  { id := "ad-bad", ad_delivery_start_time := 0, ad_delivery_stop_time := none,
    spend := some "N/A", impressions := none, demographic_distribution := none,
    ad_creative_bodies := none, ad_creative_link_titles := none,
    ad_creative_link_descriptions := none }

def w2goodAd : RawAd :=
  { id := "ad-good", ad_delivery_start_time := 0, ad_delivery_stop_time := none, spend := none,
    impressions := none, demographic_distribution := none, ad_creative_bodies := none,
    ad_creative_link_titles := none, ad_creative_link_descriptions := none }

def w2goodComponents : ComponentScores :=
  { durationScore := some 25, spendScore := some 15, impressionsScore := some 15,
    engagementScore := some 25 }

def w2goodCached : CachedScore :=
  { totalScore := some 85, componentScores := w2goodComponents, updatedAt := 1 }

/-- Per-ad environments of the C2 witness batch: the bad ad's cache lookup
rejects; the good ad has a fresh cached score of 85. -/
def w2envOf (ad : RawAd) : ScoreEnv :=
  if ad.id = "ad-bad" then { now := 0, dbLookup := .error (), dbWrite := .ok (), fuel := 3 }
  else { now := 0, dbLookup := .ok (some w2goodCached), dbWrite := .ok (), fuel := 3 }

/-- Witness for C2: in the two-ad batch, the failing ad degrades to the
all-zero enriched ad and the other ad still scores normally and is
returned. -/
theorem calculateScore_degrades_witness :
    calculateScore (w2envOf w2badAd) w2badAd = zeroScoredAd w2badAd ∧
      calculateScore (w2envOf w2goodAd) w2goodAd ∈ processAds w2envOf [w2badAd, w2goodAd] :=
  ⟨calculateScore_degrades.1 (w2envOf w2badAd) w2badAd (by decide),
   calculateScore_degrades.2 w2envOf [w2badAd, w2goodAd] w2goodAd (by decide) (by decide)⟩

/-- A `getSuccessPatterns` environment whose first Redis read rejects. -/
def w7failEnv : PatternEnv :=
  { now := 0, cacheGet := .error (), dbFind := .ok [], cacheGet2 := .ok none }

/--
C7 counterexample: the claim says a failing pattern-cache read degrades to a
recompute and `getSuccessPatterns` still returns a report.  In the source
the enclosing `catch` of `getSuccessPatterns` logs and rethrows (line 300 of
part_003), so with the cache read rejecting the call surfaces the error to
its caller instead of returning any report.
-/
theorem getSuccessPatterns_throws_on_cache_failure :
    getSuccessPatterns w7failEnv = .error () := rfl

/--
C7 amended: a pattern-cache **write** failure never surfaces (the analysis
method swallows its own errors, and `getSuccessPatterns` never reads the
write outcome: whenever its two cache reads and its DB read all resolve, it
returns a report), but a rejected cache **read** (first or re-read) or DB
read inside `getSuccessPatterns` is rethrown to the caller.
-/
theorem getSuccessPatterns_error_policy :
    (∀ env : PatternEnv, env.cacheGet = .error () → getSuccessPatterns env = .error ()) ∧
      (∀ env : PatternEnv, env.cacheGet ≠ .error () → env.dbFind ≠ .error () →
        env.cacheGet2 ≠ .error () → ∃ p, getSuccessPatterns env = .ok p) := by
  constructor
  · intro env h
    unfold getSuccessPatterns
    rw [h]
  · intro env h1 h2 h3
    cases hc : env.cacheGet with
    | error e => cases e; exact absurd hc h1
    | ok c =>
      cases c with
      | some p => exact ⟨p, by simp [getSuccessPatterns, hc]⟩
      | none =>
        cases hd : env.dbFind with
        | error e => cases e; exact absurd hd h2
        | ok records =>
          by_cases hlen : 0 < records.length
          · cases hc2 : env.cacheGet2 with
            | error e => cases e; exact absurd hc2 h3
            | ok c2 =>
              cases c2 with
              | some p => exact ⟨p, by simp [getSuccessPatterns, hc, hd, hc2, hlen]⟩
              | none =>
                exact ⟨emptyPatternReport env.now,
                  by simp [getSuccessPatterns, hc, hd, hc2, hlen]⟩
          · exact ⟨emptyPatternReport env.now, by simp [getSuccessPatterns, hc, hd, hlen]⟩

/-- A `getSuccessPatterns` environment where every read resolves (cache
miss, empty DB). -/
def w7okEnv : PatternEnv :=
  { now := 0, cacheGet := .ok none, dbFind := .ok [], cacheGet2 := .ok none }

/-- Witness for the amended C7: the read-failure case and the all-reads-ok
case, at concrete environments. -/
theorem getSuccessPatterns_error_policy_witness :
    getSuccessPatterns w7failEnv = .error () ∧ ∃ p, getSuccessPatterns w7okEnv = .ok p :=
  ⟨getSuccessPatterns_error_policy.1 w7failEnv rfl,
   getSuccessPatterns_error_policy.2 w7okEnv (by decide) (by decide) (by decide)⟩

lemma length_filter_mono {α : Type} (p q : α → Bool) (l : List α)
    (h : ∀ a, p a = true → q a = true) : (l.filter p).length ≤ (l.filter q).length := by
  induction l with
  | nil => simp
  | cons x xs ih =>
    by_cases hx : p x = true
    · rw [List.filter_cons_of_pos hx, List.filter_cons_of_pos (h x hx)]
      simpa using ih
    · rw [List.filter_cons_of_neg (by simpa using hx)]
      by_cases hq : q x = true
      · rw [List.filter_cons_of_pos hq]
        exact ih.trans (Nat.le_succ _)
      · rw [List.filter_cons_of_neg (by simpa using hq)]
        exact ih

/--
C9: on an input collection with fewer than 5 ads whose concatenated text
(creative bodies + link titles + link descriptions joined with spaces) is
non-empty, the fixed `analyzeSuccessPatterns` is a no-op returning nothing
(`none`) — never a partial term list or a pattern report — as it also is on
a missing input.  (The older copy of the method in part_003 checks only the
raw ad count; the canonical `services/adAnalysisEngine.js` version embedded
here adds the text filter.)
-/
theorem analyzeFixed_insufficient (env : CorpusEnv) (now : Int) (ads : List RawAd)
    (h : (ads.filter (fun a => !(adTextFixed a).data.isEmpty)).length < 5) :
    analyzeSuccessPatternsFixed env now (some ads) = none ∧
      analyzeSuccessPatternsFixed env now none = none := by
  refine ⟨?_, rfl⟩
  show (if ads.length < 5 then none
    else
      let adContents := (ads.map adTextFixed).filter
        (fun t => !t.data.isEmpty && !(jsTrim t).data.isEmpty)
      if adContents.length < 5 then none
      else
        some (PatternReport.mk (extractCommonTerms env.stopwords (env.listTerms adContents))
          (some (analyzeAdStructureFixed env.emojiTest ads)) (some placeholderVisualPatterns)
          now)) = none
  by_cases hlen : ads.length < 5
  · rw [if_pos hlen]
  · rw [if_neg hlen]
    have hle : ((ads.map adTextFixed).filter
        (fun t => !t.data.isEmpty && !(jsTrim t).data.isEmpty)).length ≤
        ((ads.map adTextFixed).filter (fun t => !t.data.isEmpty)).length :=
      length_filter_mono _ _ _ (fun a ha => by rw [Bool.and_eq_true] at ha; exact ha.1)
    have heq : ((ads.map adTextFixed).filter (fun t => !t.data.isEmpty)).length =
        (ads.filter (fun a => !(adTextFixed a).data.isEmpty)).length := by
      rw [List.filter_map, List.length_map]
      rfl
    rw [if_pos (by omega)]

def w9env : CorpusEnv := { listTerms := fun _ => [], emojiTest := fun _ => false, stopwords := [] }

def w9ad (n : Nat) : RawAd :=
  { id := "textless-" ++ toString n, ad_delivery_start_time := 0,
    ad_delivery_stop_time := none, spend := none, impressions := none,
    demographic_distribution := none, ad_creative_bodies := none,
    ad_creative_link_titles := none, ad_creative_link_descriptions := none }

def w9ads : List RawAd := [w9ad 1, w9ad 2, w9ad 3, w9ad 4, w9ad 5]

/-- Witness for C9: five ads without any creative text are refused by the
fixed analysis. -/
theorem analyzeFixed_insufficient_witness :
    analyzeSuccessPatternsFixed w9env 0 (some w9ads) = none ∧
      analyzeSuccessPatternsFixed w9env 0 none = none :=
  analyzeFixed_insufficient w9env 0 w9ads (by decide)

/-- The part_003 copy of the method, by contrast, accepts the same five
textless ads and produces a report: it gates only on the raw ad count. -/
lemma analyzeOrig_ignores_empty_text :
    ∃ report, analyzeSuccessPatternsOrig w9env 0 w9ads = some report :=
  ⟨_, by unfold analyzeSuccessPatternsOrig; rw [if_neg (by decide)]⟩

lemma frontier_ratCond (c : ℚ) : frontier {x : ℚ | c ≤ x} = {c} := by
  have h : {x : ℚ | c ≤ x} = Set.Ici c := rfl
  rw [h, frontier_Ici]

lemma durationScore_mono : ∀ x y : ℚ, x ≤ y →
    calculateDurationScore x ≤ calculateDurationScore y := by
  intro x y hxy
  unfold calculateDurationScore
  simp only [max_def]
  split_ifs <;> linarith

lemma durationScore_bounds : ∀ x : ℚ,
    0 ≤ calculateDurationScore x ∧ calculateDurationScore x ≤ 25 := by
  intro x
  unfold calculateDurationScore
  simp only [max_def]
  constructor <;> (split_ifs <;> linarith)

lemma durationScore_cont : Continuous calculateDurationScore := by
  unfold calculateDurationScore
  apply Continuous.if
  · intro a ha
    rw [frontier_ratCond, Set.mem_singleton_iff] at ha
    subst ha
    show (25 : ℚ) = _
    rw [if_pos (by norm_num : (30:ℚ) ≤ 60)]
    norm_num
  · exact continuous_const
  · apply Continuous.if
    · intro a ha
      rw [frontier_ratCond, Set.mem_singleton_iff] at ha
      subst ha
      show (15 : ℚ) + ((30 - 30) / 30) * 10 = _
      rw [if_pos (by norm_num : (14:ℚ) ≤ 30)]
      norm_num
    · exact continuous_const.add
        (((continuous_id.sub continuous_const).div_const 30).mul continuous_const)
    · apply Continuous.if
      · intro a ha
        rw [frontier_ratCond, Set.mem_singleton_iff] at ha
        subst ha
        show (10 : ℚ) + ((14 - 14) / 16) * 5 = _
        rw [if_pos (by norm_num : (7:ℚ) ≤ 14)]
        norm_num
      · exact continuous_const.add
          (((continuous_id.sub continuous_const).div_const 16).mul continuous_const)
      · apply Continuous.if
        · intro a ha
          rw [frontier_ratCond, Set.mem_singleton_iff] at ha
          subst ha
          show (5 : ℚ) + ((7 - 7) / 7) * 5 = max 0 (7 / 7 * 5)
          rw [max_eq_right (by norm_num : (0:ℚ) ≤ 7 / 7 * 5)]
          norm_num
        · exact continuous_const.add
            (((continuous_id.sub continuous_const).div_const 7).mul continuous_const)
        · exact continuous_const.max ((continuous_id.div_const 7).mul continuous_const)

lemma spendScore_mono : ∀ x y : ℚ, x ≤ y → calculateSpendScore x ≤ calculateSpendScore y := by
  intro x y hxy
  unfold calculateSpendScore
  simp only [max_def]
  split_ifs <;> linarith

lemma spendScore_bounds : ∀ x : ℚ, 0 ≤ calculateSpendScore x ∧ calculateSpendScore x ≤ 25 := by
  intro x
  unfold calculateSpendScore
  simp only [max_def]
  constructor <;> (split_ifs <;> linarith)

lemma spendScore_cont : Continuous calculateSpendScore := by
  unfold calculateSpendScore
  apply Continuous.if
  · intro a ha
    rw [frontier_ratCond, Set.mem_singleton_iff] at ha
    subst ha
    show (25 : ℚ) = _
    rw [if_pos (by norm_num : (1000:ℚ) ≤ 5000)]
    norm_num
  · exact continuous_const
  · apply Continuous.if
    · intro a ha
      rw [frontier_ratCond, Set.mem_singleton_iff] at ha
      subst ha
      show (15 : ℚ) + ((1000 - 1000) / 4000) * 10 = _
      rw [if_pos (by norm_num : (500:ℚ) ≤ 1000)]
      norm_num
    · exact continuous_const.add
        (((continuous_id.sub continuous_const).div_const 4000).mul continuous_const)
    · apply Continuous.if
      · intro a ha
        rw [frontier_ratCond, Set.mem_singleton_iff] at ha
        subst ha
        show (10 : ℚ) + ((500 - 500) / 500) * 5 = _
        rw [if_pos (by norm_num : (100:ℚ) ≤ 500)]
        norm_num
      · exact continuous_const.add
          (((continuous_id.sub continuous_const).div_const 500).mul continuous_const)
      · apply Continuous.if
        · intro a ha
          rw [frontier_ratCond, Set.mem_singleton_iff] at ha
          subst ha
          show (5 : ℚ) + ((100 - 100) / 400) * 5 = max 0 (100 / 100 * 5)
          rw [max_eq_right (by norm_num : (0:ℚ) ≤ 100 / 100 * 5)]
          norm_num
        · exact continuous_const.add
            (((continuous_id.sub continuous_const).div_const 400).mul continuous_const)
        · exact continuous_const.max ((continuous_id.div_const 100).mul continuous_const)

lemma impressionsScore_mono : ∀ x y : ℚ, x ≤ y →
    calculateImpressionsScore x ≤ calculateImpressionsScore y := by
  intro x y hxy
  unfold calculateImpressionsScore
  simp only [max_def]
  split_ifs <;> linarith

lemma impressionsScore_bounds : ∀ x : ℚ,
    0 ≤ calculateImpressionsScore x ∧ calculateImpressionsScore x ≤ 25 := by
  intro x
  unfold calculateImpressionsScore
  simp only [max_def]
  constructor <;> (split_ifs <;> linarith)

lemma impressionsScore_cont : Continuous calculateImpressionsScore := by
  unfold calculateImpressionsScore
  apply Continuous.if
  · intro a ha
    rw [frontier_ratCond, Set.mem_singleton_iff] at ha
    subst ha
    show (25 : ℚ) = _
    rw [if_pos (by norm_num : (100000:ℚ) ≤ 500000)]
    norm_num
  · exact continuous_const
  · apply Continuous.if
    · intro a ha
      rw [frontier_ratCond, Set.mem_singleton_iff] at ha
      subst ha
      show (15 : ℚ) + ((100000 - 100000) / 400000) * 10 = _
      rw [if_pos (by norm_num : (50000:ℚ) ≤ 100000)]
      norm_num
    · exact continuous_const.add
        (((continuous_id.sub continuous_const).div_const 400000).mul continuous_const)
    · apply Continuous.if
      · intro a ha
        rw [frontier_ratCond, Set.mem_singleton_iff] at ha
        subst ha
        show (10 : ℚ) + ((50000 - 50000) / 50000) * 5 = _
        rw [if_pos (by norm_num : (10000:ℚ) ≤ 50000)]
        norm_num
      · exact continuous_const.add
          (((continuous_id.sub continuous_const).div_const 50000).mul continuous_const)
      · apply Continuous.if
        · intro a ha
          rw [frontier_ratCond, Set.mem_singleton_iff] at ha
          subst ha
          show (5 : ℚ) + ((10000 - 10000) / 40000) * 5 = max 0 (10000 / 10000 * 5)
          rw [max_eq_right (by norm_num : (0:ℚ) ≤ 10000 / 10000 * 5)]
          norm_num
        · exact continuous_const.add
            (((continuous_id.sub continuous_const).div_const 40000).mul continuous_const)
        · exact continuous_const.max ((continuous_id.div_const 10000).mul continuous_const)

lemma engagementRateScore_mono : ∀ x y : ℚ, x ≤ y →
    engagementRateScore x ≤ engagementRateScore y := by
  intro x y hxy
  unfold engagementRateScore
  simp only [max_def]
  split_ifs <;> linarith

lemma engagementRateScore_bounds : ∀ x : ℚ,
    0 ≤ engagementRateScore x ∧ engagementRateScore x ≤ 25 := by
  intro x
  unfold engagementRateScore
  simp only [max_def]
  constructor <;> (split_ifs <;> linarith)

lemma engagementRateScore_cont : Continuous engagementRateScore := by
  unfold engagementRateScore
  apply Continuous.if
  · intro a ha
    rw [frontier_ratCond, Set.mem_singleton_iff] at ha
    subst ha
    show (25 : ℚ) = _
    rw [if_pos (by norm_num : (5/100:ℚ) ≤ 1/10)]
    norm_num
  · exact continuous_const
  · apply Continuous.if
    · intro a ha
      rw [frontier_ratCond, Set.mem_singleton_iff] at ha
      subst ha
      show (15 : ℚ) + ((5/100 - 5/100) / (5/100)) * 10 = _
      rw [if_pos (by norm_num : (3/100:ℚ) ≤ 5/100)]
      norm_num
    · exact continuous_const.add
        (((continuous_id.sub continuous_const).div_const (5/100)).mul continuous_const)
    · apply Continuous.if
      · intro a ha
        rw [frontier_ratCond, Set.mem_singleton_iff] at ha
        subst ha
        show (10 : ℚ) + ((3/100 - 3/100) / (2/100)) * 5 = _
        rw [if_pos (by norm_num : (1/100:ℚ) ≤ 3/100)]
        norm_num
      · exact continuous_const.add
          (((continuous_id.sub continuous_const).div_const (2/100)).mul continuous_const)
      · apply Continuous.if
        · intro a ha
          rw [frontier_ratCond, Set.mem_singleton_iff] at ha
          subst ha
          show (5 : ℚ) + ((1/100 - 1/100) / (2/100)) * 5 = max 0 (1/100 / (1/100) * 5)
          rw [max_eq_right (by norm_num : (0:ℚ) ≤ 1/100 / (1/100) * 5)]
          norm_num
        · exact continuous_const.add
            (((continuous_id.sub continuous_const).div_const (2/100)).mul continuous_const)
        · exact continuous_const.max ((continuous_id.div_const (1/100)).mul continuous_const)

/--
C5: each of the four component tier functions — duration, spend,
impressions and engagement rate — is monotonically non-decreasing, takes
values in `[0, 25]`, is continuous (hence has no jump at any tier boundary;
in particular `spendScore` has no jump at 100, 500, 1000, 5000), equals `25`
at and above its saturation threshold (60 days, 5000 dollars, 500000
impressions, rate 10 percent), and equals `0` at input `0`.
-/
theorem tierFunctions_spec :
    (∀ x y : ℚ, x ≤ y → calculateDurationScore x ≤ calculateDurationScore y) ∧
      (∀ x y : ℚ, x ≤ y → calculateSpendScore x ≤ calculateSpendScore y) ∧
      (∀ x y : ℚ, x ≤ y → calculateImpressionsScore x ≤ calculateImpressionsScore y) ∧
      (∀ x y : ℚ, x ≤ y → engagementRateScore x ≤ engagementRateScore y) ∧
      (∀ x : ℚ, 0 ≤ calculateDurationScore x ∧ calculateDurationScore x ≤ 25) ∧
      (∀ x : ℚ, 0 ≤ calculateSpendScore x ∧ calculateSpendScore x ≤ 25) ∧
      (∀ x : ℚ, 0 ≤ calculateImpressionsScore x ∧ calculateImpressionsScore x ≤ 25) ∧
      (∀ x : ℚ, 0 ≤ engagementRateScore x ∧ engagementRateScore x ≤ 25) ∧
      Continuous calculateDurationScore ∧ Continuous calculateSpendScore ∧
      Continuous calculateImpressionsScore ∧ Continuous engagementRateScore ∧
      (∀ x : ℚ, 60 ≤ x → calculateDurationScore x = 25) ∧
      (∀ x : ℚ, 5000 ≤ x → calculateSpendScore x = 25) ∧
      (∀ x : ℚ, 500000 ≤ x → calculateImpressionsScore x = 25) ∧
      (∀ x : ℚ, 1/10 ≤ x → engagementRateScore x = 25) ∧
      calculateDurationScore 0 = 0 ∧ calculateSpendScore 0 = 0 ∧
      calculateImpressionsScore 0 = 0 ∧ engagementRateScore 0 = 0 := by
  refine ⟨durationScore_mono, spendScore_mono, impressionsScore_mono, engagementRateScore_mono,
    durationScore_bounds, spendScore_bounds, impressionsScore_bounds, engagementRateScore_bounds,
    durationScore_cont, spendScore_cont, impressionsScore_cont, engagementRateScore_cont,
    ?_, ?_, ?_, ?_, ?_, ?_, ?_, ?_⟩
  · intro x hx
    unfold calculateDurationScore
    rw [if_pos hx]
  · intro x hx
    unfold calculateSpendScore
    rw [if_pos hx]
  · intro x hx
    unfold calculateImpressionsScore
    rw [if_pos hx]
  · intro x hx
    unfold engagementRateScore
    rw [if_pos hx]
  · unfold calculateDurationScore
    rw [if_neg (by norm_num), if_neg (by norm_num), if_neg (by norm_num), if_neg (by norm_num)]
    norm_num
  · unfold calculateSpendScore
    rw [if_neg (by norm_num), if_neg (by norm_num), if_neg (by norm_num), if_neg (by norm_num)]
    norm_num
  · unfold calculateImpressionsScore
    rw [if_neg (by norm_num), if_neg (by norm_num), if_neg (by norm_num), if_neg (by norm_num)]
    norm_num
  · unfold engagementRateScore
    rw [if_neg (by norm_num), if_neg (by norm_num), if_neg (by norm_num), if_neg (by norm_num)]
    norm_num

/-- Witness for C5: the parts of the theorem carrying hypotheses, applied at
concrete inputs (monotonicity across a tier boundary, saturation at each
threshold). -/
theorem tierFunctions_spec_witness :
    calculateDurationScore 3 ≤ calculateDurationScore 45 ∧
      calculateSpendScore 50 ≤ calculateSpendScore 700 ∧
      calculateImpressionsScore 5000 ≤ calculateImpressionsScore 60000 ∧
      engagementRateScore (2/100) ≤ engagementRateScore (6/100) ∧
      calculateDurationScore 61 = 25 ∧ calculateSpendScore 6000 = 25 ∧
      calculateImpressionsScore 700000 = 25 ∧ engagementRateScore (2/10) = 25 :=
  ⟨tierFunctions_spec.1 3 45 (by norm_num),
   tierFunctions_spec.2.1 50 700 (by norm_num),
   tierFunctions_spec.2.2.1 5000 60000 (by norm_num),
   tierFunctions_spec.2.2.2.1 (2/100) (6/100) (by norm_num),
   tierFunctions_spec.2.2.2.2.2.2.2.2.2.2.2.2.1 61 (by norm_num),
   tierFunctions_spec.2.2.2.2.2.2.2.2.2.2.2.2.2.1 6000 (by norm_num),
   tierFunctions_spec.2.2.2.2.2.2.2.2.2.2.2.2.2.2.1 700000 (by norm_num),
   tierFunctions_spec.2.2.2.2.2.2.2.2.2.2.2.2.2.2.2.1 (2/10) (by norm_num)⟩

lemma termLE_trans : ∀ a b c : CommonTerm, termLE a b → termLE b c → termLE a c := by
  intro a b c hab hbc
  simp only [termLE, Bool.or_eq_true, Bool.and_eq_true, decide_eq_true_eq] at *
  rcases hab with h1 | ⟨h1, h2⟩ <;> rcases hbc with h3 | ⟨h3, h4⟩
  · exact Or.inl (by omega)
  · exact Or.inl (by omega)
  · exact Or.inl (by omega)
  · exact Or.inr ⟨by omega, h4.trans h2⟩

lemma termLE_total : ∀ a b : CommonTerm, termLE a b || termLE b a := by
  intro a b
  simp only [termLE, Bool.or_eq_true, Bool.and_eq_true, decide_eq_true_eq]
  rcases Nat.lt_trichotomy a.count b.count with h | h | h
  · exact Or.inr (Or.inl h)
  · rcases le_total a.averageTfidf b.averageTfidf with h2 | h2
    · exact Or.inr (Or.inr ⟨h, h2⟩)
    · exact Or.inl (Or.inr ⟨h.symm, h2⟩)
  · exact Or.inl (Or.inl h)

/-- First-match count lookup in the accumulator, mirroring a JS object read. -/
def countOf (t : String) : List AccEntry → Nat
  | [] => 0
  | a :: as => if a.term = t then a.count else countOf t as

@[simp] lemma countOf_nil (t : String) : countOf t [] = 0 := rfl

lemma countOf_cons (t : String) (a : AccEntry) (as : List AccEntry) :
    countOf t (a :: as) = if a.term = t then a.count else countOf t as := rfl

/-- The term keys of the accumulator, in insertion order. -/
def accTerms (acc : List AccEntry) : List String := acc.map AccEntry.term

lemma countOf_bump_self (acc : List AccEntry) (t : String) (w : ℚ) :
    countOf t (bump acc t w) = countOf t acc + 1 := by
  unfold bump
  by_cases hpres : acc.any (fun a => a.term = t) = true
  · rw [if_pos hpres]
    induction acc with
    | nil => simp at hpres
    | cons x xs ih =>
      by_cases hx : x.term = t
      · subst hx
        simp [countOf_cons]
      · simp only [List.any_cons] at hpres
        have hxs : (xs.any fun a => decide (a.term = t)) = true := by
          rw [Bool.or_eq_true] at hpres
          rcases hpres with h | h
          · exact absurd (of_decide_eq_true h) hx
          · exact h
        simp [countOf_cons, hx]
        exact ih hxs
  · rw [if_neg hpres]
    induction acc with
    | nil => simp [countOf_cons]
    | cons x xs ih =>
      simp only [List.any_cons] at hpres
      have hx : ¬(x.term = t) := fun he => hpres (by simp [he])
      have hxs : ¬(xs.any (fun a => a.term = t) = true) := fun he => hpres (by simp [he])
      simp [countOf_cons, hx]
      exact ih hxs

lemma countOf_bump_other (acc : List AccEntry) (s t : String) (w : ℚ) (hst : s ≠ t) :
    countOf t (bump acc s w) = countOf t acc := by
  unfold bump
  by_cases hpres : acc.any (fun a => a.term = s) = true
  · rw [if_pos hpres]
    clear hpres
    induction acc with
    | nil => rfl
    | cons x xs ih =>
      by_cases hx : x.term = s
      · subst hx
        have hxt : ¬(x.term = t) := hst
        simp [countOf_cons, hxt]
        exact ih
      · by_cases hxt : x.term = t
        · simp [countOf_cons, hxt, hx, Ne.symm hst]
        · simp [countOf_cons, hxt, hx]
          exact ih
  · rw [if_neg hpres]
    clear hpres
    induction acc with
    | nil => simp [countOf_cons, hst]
    | cons x xs ih =>
      by_cases hxt : x.term = t
      · simp [countOf_cons, hxt]
      · simp [countOf_cons, hxt]
        exact ih

lemma countOf_stepTerm_match (stop : List String) (acc : List AccEntry) (item : TfIdfItem)
    (t : String) (hmatch : jsToLower item.term = t)
    (hq : (stop.contains t || decide (t.data.length < 3)) = false) :
    countOf t (stepTerm stop acc item) = countOf t acc + 1 := by
  unfold stepTerm
  rw [hmatch]
  rw [if_neg (fun h => Bool.false_ne_true (hq ▸ h))]
  exact countOf_bump_self acc t item.tfidf

lemma countOf_stepTerm_nomatch (stop : List String) (acc : List AccEntry) (item : TfIdfItem)
    (t : String) (hmatch : ¬(jsToLower item.term = t)) :
    countOf t (stepTerm stop acc item) = countOf t acc := by
  unfold stepTerm
  by_cases hskip :
      (stop.contains (jsToLower item.term) || decide ((jsToLower item.term).data.length < 3)) = true
  · rw [if_pos hskip]
  · rw [if_neg hskip]
    exact countOf_bump_other acc (jsToLower item.term) t item.tfidf hmatch

lemma countOf_innerFold (stop : List String) (t : String)
    (hq : (stop.contains t || decide (t.data.length < 3)) = false) :
    ∀ (l : List TfIdfItem) (acc : List AccEntry),
      ((l.map (fun i => jsToLower i.term)).Nodup) →
      countOf t (l.foldl (stepTerm stop) acc) =
        countOf t acc + (if l.any (fun i => jsToLower i.term = t) then 1 else 0) := by
  intro l
  induction l with
  | nil => intro acc _; simp
  | cons x xs ih =>
    intro acc hnd
    rw [List.map_cons, List.nodup_cons] at hnd
    obtain ⟨hxnotin, hndxs⟩ := hnd
    rw [List.foldl_cons]
    by_cases hx : jsToLower x.term = t
    · rw [ih (stepTerm stop acc x) hndxs]
      rw [countOf_stepTerm_match stop acc x t hx hq]
      have hany : (xs.any fun i => decide (jsToLower i.term = t)) = false := by
        cases h : (xs.any fun i => decide (jsToLower i.term = t)) with
        | false => rfl
        | true =>
          obtain ⟨i, hi, hp⟩ := List.any_eq_true.mp h
          rw [hx] at hxnotin
          exact absurd (List.mem_map.mpr ⟨i, hi, of_decide_eq_true hp⟩) hxnotin
      simp [List.any_cons, hx, hany]
    · rw [ih (stepTerm stop acc x) hndxs, countOf_stepTerm_nomatch stop acc x t hx]
      simp [List.any_cons, hx]

lemma countOf_outerFold (stop : List String) (t : String)
    (hq : (stop.contains t || decide (t.data.length < 3)) = false) :
    ∀ (docs : List (List TfIdfItem)) (acc : List AccEntry),
      (∀ doc ∈ docs, (((doc.take 10).map (fun i => jsToLower i.term)).Nodup)) →
      countOf t (docs.foldl (fun acc doc => (doc.take 10).foldl (stepTerm stop) acc) acc) =
        countOf t acc +
          docs.countP (fun doc => (doc.take 10).any (fun i => jsToLower i.term = t)) := by
  intro docs
  induction docs with
  | nil => intro acc _; simp
  | cons d ds ih =>
    intro acc hnd
    rw [List.foldl_cons]
    rw [ih _ (fun doc hdoc => hnd doc (List.mem_cons_of_mem _ hdoc))]
    rw [countOf_innerFold stop t hq (d.take 10) acc (hnd d (List.mem_cons_self _ _))]
    rw [List.countP_cons]
    by_cases hd : ((d.take 10).any fun i => decide (jsToLower i.term = t)) = true
    · simp only [hd, if_pos]
      omega
    · simp only [Bool.not_eq_true] at hd
      simp only [hd]
      omega

lemma accTerms_bump_present (acc : List AccEntry) (t : String) (w : ℚ)
    (h : acc.any (fun a => a.term = t) = true) : accTerms (bump acc t w) = accTerms acc := by
  unfold bump accTerms
  rw [if_pos h, List.map_map]
  apply List.map_congr_left
  intro a _
  by_cases ha : a.term = t
  · simp [Function.comp, ha]
  · simp [Function.comp, ha]

lemma accTerms_bump_absent (acc : List AccEntry) (t : String) (w : ℚ)
    (h : ¬(acc.any (fun a => a.term = t) = true)) :
    accTerms (bump acc t w) = accTerms acc ++ [t] := by
  unfold bump accTerms
  rw [if_neg h, List.map_append]
  rfl

lemma nodup_bump (acc : List AccEntry) (t : String) (w : ℚ) (h : (accTerms acc).Nodup) :
    (accTerms (bump acc t w)).Nodup := by
  by_cases hpres : acc.any (fun a => a.term = t) = true
  · rw [accTerms_bump_present acc t w hpres]
    exact h
  · rw [accTerms_bump_absent acc t w hpres]
    rw [List.nodup_append]
    refine ⟨h, List.nodup_singleton t, ?_⟩
    intro a ha hb
    rw [List.mem_singleton] at hb
    subst hb
    obtain ⟨e, he, hterm⟩ := List.mem_map.mp ha
    exact hpres (List.any_eq_true.mpr ⟨e, he, by simp [hterm]⟩)

lemma nodup_stepTerm (stop : List String) (acc : List AccEntry) (item : TfIdfItem)
    (h : (accTerms acc).Nodup) : (accTerms (stepTerm stop acc item)).Nodup := by
  unfold stepTerm
  by_cases hskip :
      (stop.contains (jsToLower item.term) || decide ((jsToLower item.term).data.length < 3)) = true
  · rw [if_pos hskip]
    exact h
  · rw [if_neg hskip]
    exact nodup_bump _ _ _ h

lemma nodup_innerFold (stop : List String) : ∀ (l : List TfIdfItem) (acc : List AccEntry),
    (accTerms acc).Nodup → (accTerms (l.foldl (stepTerm stop) acc)).Nodup := by
  intro l
  induction l with
  | nil => intro acc h; exact h
  | cons x xs ih =>
    intro acc h
    rw [List.foldl_cons]
    exact ih _ (nodup_stepTerm _ _ _ h)

lemma nodup_accumulate (stop : List String) (docs : List (List TfIdfItem)) :
    (accTerms (accumulateTerms stop docs)).Nodup := by
  unfold accumulateTerms
  have key : ∀ (ds : List (List TfIdfItem)) (acc : List AccEntry), (accTerms acc).Nodup →
      (accTerms (ds.foldl (fun acc doc => (doc.take 10).foldl (stepTerm stop) acc) acc)).Nodup := by
    intro ds
    induction ds with
    | nil => intro acc h; exact h
    | cons d rest ih =>
      intro acc h
      rw [List.foldl_cons]
      exact ih _ (nodup_innerFold stop _ _ h)
  exact key docs [] (by simp [accTerms])

lemma countOf_of_mem_nodup : ∀ (acc : List AccEntry), (accTerms acc).Nodup →
    ∀ a ∈ acc, countOf a.term acc = a.count := by
  intro acc
  induction acc with
  | nil => intro _ a ha; cases ha
  | cons x xs ih =>
    intro hnd a ha
    rw [accTerms, List.map_cons, List.nodup_cons] at hnd
    obtain ⟨hxnot, hndxs⟩ := hnd
    rcases List.mem_cons.mp ha with rfl | hmem
    · simp [countOf_cons]
    · rw [countOf_cons]
      have hne : ¬(x.term = a.term) := by
        intro he
        apply hxnot
        rw [he]
        exact List.mem_map_of_mem AccEntry.term hmem
      rw [if_neg hne]
      exact ih hndxs a hmem

lemma mem_bump (acc : List AccEntry) (t : String) (w : ℚ) :
    ∀ b ∈ bump acc t w, (∃ c ∈ acc, c.term = b.term) ∨ b.term = t := by
  intro b hb
  unfold bump at hb
  by_cases hpres : acc.any (fun a => a.term = t) = true
  · rw [if_pos hpres] at hb
    obtain ⟨c, hc, hfc⟩ := List.mem_map.mp hb
    refine Or.inl ⟨c, hc, ?_⟩
    rw [← hfc]
    by_cases hct : c.term = t
    · simp [hct]
    · simp [hct]
  · rw [if_neg hpres] at hb
    rcases List.mem_append.mp hb with h | h
    · exact Or.inl ⟨b, h, rfl⟩
    · rw [List.mem_singleton] at h
      subst h
      exact Or.inr rfl

lemma mem_stepTerm (stop : List String) (acc : List AccEntry) (item : TfIdfItem) :
    ∀ b ∈ stepTerm stop acc item,
      (∃ c ∈ acc, c.term = b.term) ∨
        (b.term = jsToLower item.term ∧
          (stop.contains b.term || decide (b.term.data.length < 3)) = false) := by
  intro b hb
  unfold stepTerm at hb
  by_cases hskip :
      (stop.contains (jsToLower item.term) || decide ((jsToLower item.term).data.length < 3)) = true
  · rw [if_pos hskip] at hb
    exact Or.inl ⟨b, hb, rfl⟩
  · rw [if_neg hskip] at hb
    rcases mem_bump acc (jsToLower item.term) item.tfidf b hb with h | h
    · exact Or.inl h
    · refine Or.inr ⟨h, ?_⟩
      rw [h]
      exact Bool.eq_false_iff.mpr hskip

lemma mem_innerFold (stop : List String) : ∀ (l : List TfIdfItem) (acc : List AccEntry)
    (b : AccEntry), b ∈ l.foldl (stepTerm stop) acc →
      (∃ c ∈ acc, c.term = b.term) ∨
        ((∃ item ∈ l, b.term = jsToLower item.term) ∧
          (stop.contains b.term || decide (b.term.data.length < 3)) = false) := by
  intro l
  induction l with
  | nil => intro acc b hb; exact Or.inl ⟨b, hb, rfl⟩
  | cons x xs ih =>
    intro acc b hb
    rw [List.foldl_cons] at hb
    rcases ih (stepTerm stop acc x) b hb with h | h
    · obtain ⟨c, hc, hcb⟩ := h
      rcases mem_stepTerm stop acc x c hc with h2 | h2
      · obtain ⟨c2, hc2, he⟩ := h2
        exact Or.inl ⟨c2, hc2, he.trans hcb⟩
      · refine Or.inr ⟨⟨x, List.mem_cons_self _ _, ?_⟩, ?_⟩
        · rw [← hcb]
          exact h2.1
        · rw [← hcb]
          exact h2.2
    · obtain ⟨⟨item, hi, he⟩, hq⟩ := h
      exact Or.inr ⟨⟨item, List.mem_cons_of_mem _ hi, he⟩, hq⟩

lemma mem_accumulate (stop : List String) (docs : List (List TfIdfItem)) :
    ∀ a ∈ accumulateTerms stop docs,
      (∃ doc ∈ docs, ∃ item ∈ doc.take 10, a.term = jsToLower item.term) ∧
        (stop.contains a.term || decide (a.term.data.length < 3)) = false := by
  have key : ∀ (ds : List (List TfIdfItem)) (acc : List AccEntry) (a : AccEntry),
      a ∈ ds.foldl (fun acc doc => (doc.take 10).foldl (stepTerm stop) acc) acc →
        (∃ c ∈ acc, c.term = a.term) ∨
          ((∃ doc ∈ ds, ∃ item ∈ doc.take 10, a.term = jsToLower item.term) ∧
            (stop.contains a.term || decide (a.term.data.length < 3)) = false) := by
    intro ds
    induction ds with
    | nil => intro acc a ha; exact Or.inl ⟨a, ha, rfl⟩
    | cons d rest ih =>
      intro acc a ha
      rw [List.foldl_cons] at ha
      rcases ih _ a ha with h | h
      · obtain ⟨c, hc, hca⟩ := h
        rcases mem_innerFold stop (d.take 10) acc c hc with h2 | h2
        · obtain ⟨c2, hc2, he⟩ := h2
          exact Or.inl ⟨c2, hc2, he.trans hca⟩
        · obtain ⟨⟨item, hi, he⟩, hq⟩ := h2
          refine Or.inr ⟨⟨d, List.mem_cons_self _ _, item, hi, ?_⟩, ?_⟩
          · rw [← hca]
            exact he
          · rw [← hca]
            exact hq
      · obtain ⟨⟨doc, hdoc, hrest⟩, hq⟩ := h
        exact Or.inr ⟨⟨doc, List.mem_cons_of_mem _ hdoc, hrest⟩, hq⟩
  intro a ha
  rcases key docs [] a ha with h | h
  · obtain ⟨c, hc, -⟩ := h
    cases hc
  · exact h

/--
C8: for every stopword list and every family of per-document `listTerms`
outputs whose lowercased top-10 terms are distinct within each document (as
the TF-IDF model produces), `extractCommonTerms` returns at most 20 entries,
sorted descending primarily by document count and on ties descending by
average TF-IDF (`tfidfSum/count`), and every entry is a lowercased term of
length at least 3 that is not a stopword and occurs with `count > 1` — i.e.
it appears in the per-document top-10 of at least two distinct documents.
-/
theorem extractCommonTerms_spec (stop : List String) (docs : List (List TfIdfItem))
    (hnd : ∀ doc ∈ docs, (((doc.take 10).map (fun i => jsToLower i.term)).Nodup)) :
    (extractCommonTerms stop docs).length ≤ 20 ∧
      List.Pairwise (fun a b : CommonTerm =>
        b.count < a.count ∨ (b.count = a.count ∧ b.averageTfidf ≤ a.averageTfidf))
        (extractCommonTerms stop docs) ∧
      ∀ item ∈ extractCommonTerms stop docs,
        1 < item.count ∧ 3 ≤ item.term.data.length ∧ stop.contains item.term = false ∧
          (∃ doc ∈ docs, ∃ raw ∈ doc.take 10, item.term = jsToLower raw.term) ∧
          2 ≤ docs.countP
            (fun doc => (doc.take 10).any (fun i => jsToLower i.term = item.term)) := by
  have hout : extractCommonTerms stop docs =
      ((((accumulateTerms stop docs).map (fun a =>
        ({ term := a.term, count := a.count,
           averageTfidf := a.tfidfSum / (a.count : ℚ) } : CommonTerm))).filter
        (fun item => decide (1 < item.count))).mergeSort termLE).take 20 := rfl
  refine ⟨?_, ?_, ?_⟩
  · rw [hout]
    exact List.length_take_le _ _
  · rw [hout]
    have hsorted := List.sorted_mergeSort termLE_trans termLE_total
      (l := (((accumulateTerms stop docs).map (fun a =>
        ({ term := a.term, count := a.count,
           averageTfidf := a.tfidfSum / (a.count : ℚ) } : CommonTerm))).filter
        (fun item => decide (1 < item.count))))
    refine List.Pairwise.sublist (List.take_sublist _ _) (hsorted.imp ?_)
    intro a b hab
    simpa only [termLE, Bool.or_eq_true, Bool.and_eq_true, decide_eq_true_eq] using hab
  · intro item hitem
    rw [hout] at hitem
    have hmem1 := List.mem_of_mem_take hitem
    rw [List.mem_mergeSort, List.mem_filter] at hmem1
    obtain ⟨hmapped, hcountb⟩ := hmem1
    obtain ⟨a, hamem, haeq⟩ := List.mem_map.mp hmapped
    have hcount : 1 < item.count := of_decide_eq_true hcountb
    obtain ⟨⟨doc, hdoc, raw, hraw, hterm⟩, hq⟩ := mem_accumulate stop docs a hamem
    rw [Bool.or_eq_false_iff] at hq
    obtain ⟨hstop, hlen⟩ := hq
    have hlen3 : 3 ≤ a.term.data.length := by
      have := of_decide_eq_false hlen
      omega
    have hcnt := countOf_of_mem_nodup (accumulateTerms stop docs)
      (nodup_accumulate stop docs) a hamem
    have hcp := countOf_outerFold stop a.term (by rw [Bool.or_eq_false_iff]; exact ⟨hstop, hlen⟩)
      docs [] hnd
    have hcp2 : a.count =
        docs.countP (fun doc => (doc.take 10).any (fun i => jsToLower i.term = a.term)) := by
      rw [← hcnt]
      rw [show accumulateTerms stop docs =
        docs.foldl (fun acc doc => (doc.take 10).foldl (stepTerm stop) acc) [] from rfl]
      rw [hcp]
      simp
    subst haeq
    dsimp only at hcount ⊢
    exact ⟨hcount, hlen3, hstop, ⟨doc, hdoc, raw, hraw, hterm⟩, by omega⟩

/-- Two TF-IDF documents sharing the salient term "great" (with different
original casing), for the C8 witness. -/
def w8docs : List (List TfIdfItem) :=
  [[{ term := "Great", tfidf := 5 }, { term := "offer", tfidf := 3 }],
   [{ term := "great", tfidf := 4 }, { term := "deal", tfidf := 2 }]]

/-- Witness for C8: the theorem applied to the concrete two-document corpus,
with the per-document distinctness hypothesis discharged by computation. -/
theorem extractCommonTerms_spec_witness :
    (extractCommonTerms [] w8docs).length ≤ 20 ∧
      List.Pairwise (fun a b : CommonTerm =>
        b.count < a.count ∨ (b.count = a.count ∧ b.averageTfidf ≤ a.averageTfidf))
        (extractCommonTerms [] w8docs) :=
  ⟨(extractCommonTerms_spec [] w8docs (by decide)).1,
   (extractCommonTerms_spec [] w8docs (by decide)).2.1⟩
